import Mathlib

/-!
Verification of the context-engine MCP gateway.

Shallow embedding of the repository's core logic:
- `src/lib/server-utils.ts` (client-address and credential extraction),
- `src/lib/documentation-setup.ts` (local scaffold synchronizer) over an
  explicit filesystem state,
- the explicit-project-root `startContextEngine` orchestrator from
  `src/lib/api.ts` (the variant wired into `index.ts`), together with the
  response-normalization logic of the auxiliary read operations,
- the `/messages` session-dispatch handler from `src/index.ts`.

Asynchronous functions are modelled as pure state-passing functions; a thrown
JavaScript exception is an `Except.error` carrying the error message.

JavaScript string primitives (`split`, `trim`, `startsWith`, `substring`) are
modelled by structurally recursive functions on the underlying character
lists, so that every definition evaluates by kernel reduction.
-/

/-! ### JavaScript string primitives -/

/-- `s.split(",")` on the character list: splitting on a separator always
yields at least one (possibly empty) piece. -/
def splitCommaList : List Char → List (List Char)
  | [] => [[]]
  | c :: cs =>
    match splitCommaList cs with
    | [] => [[]]
    | h :: t => if c = ',' then [] :: h :: t else (c :: h) :: t

/-- `s.split(",")`. -/
def jsSplitComma (s : String) : List String :=
  (splitCommaList s.data).map (fun l => String.mk l)

/-- `s.trim()`: strip leading and trailing whitespace. -/
def jsTrim (s : String) : String :=
  String.mk (((s.data.dropWhile Char.isWhitespace).reverse.dropWhile
    Char.isWhitespace).reverse)

/-- `s.startsWith(pre)`. -/
def jsStartsWith (s pre : String) : Bool :=
  pre.data.isPrefixOf s.data

/-- `s.substring(n)` / dropping the first `n` characters. -/
def jsDrop (s : String) (n : Nat) : String :=
  String.mk (s.data.drop n)

/-! ### Node HTTP header values

A Node request header value is `string | string[] | undefined`.  Node's HTTP
layer never yields an empty array for a present header, so the list case is
modelled with an explicit head element. -/

inductive HeaderVal where
  | str (s : String)
  | list (hd : String) (tl : List String)
deriving DecidableEq, Repr

/-- JavaScript truthiness of a header value: `undefined` and the empty string
are falsy, an array is always truthy. -/
def headerTruthy : Option HeaderVal → Bool
  | none => false
  | some (.str s) => !(s = "")
  | some (.list _ _) => true

/-- JavaScript `a || b` on two header lookups. -/
def jsOrHeader (a b : Option HeaderVal) : Option HeaderVal :=
  if headerTruthy a then a else b

/-- `Array.isArray(v) ? v[0] : v` for a (truthy) header value. -/
def headerFirst : HeaderVal → String
  | .str s => s
  | .list hd _ => hd

/-- `ip.replace(/^::ffff:/, "")`: strip an IPv6-mapped-IPv4 prefix. -/
def stripIpv6Mapped (s : String) : String :=
  if jsStartsWith s "::ffff:" then jsDrop s 7 else s

/-- The private-range test applied by `getClientIp`:
`plainIp.startsWith("10.")`, `plainIp.startsWith("192.168.")`, or the regular
expression `/^172\.(1[6-9]|2[0-9]|3[0-1])\./` (canonical dotted-decimal
prefixes of 10.0.0.0/8, 192.168.0.0/16 and 172.16.0.0/12). -/
def isPrivateIp (s : String) : Bool :=
  jsStartsWith s "10." || jsStartsWith s "192.168." ||
    (jsStartsWith s "172." &&
      (["16.", "17.", "18.", "19.", "20.", "21.", "22.", "23.", "24.", "25.",
        "26.", "27.", "28.", "29.", "30.", "31."].any
        (fun p => jsStartsWith (jsDrop s 4) p)))

/-- The `for (const ip of ipList)` loop body of `getClientIp`: return the first
entry that, after stripping a `::ffff:` prefix, is not private. -/
def firstPublicIp : List String → Option String
  | [] => none
  | ip :: rest =>
    let plainIp := stripIpv6Mapped ip
    if isPrivateIp plainIp then firstPublicIp rest else some plainIp

/-- `getClientIp` from `src/lib/server-utils.ts`.  The two header lookups
(`x-forwarded-for`, `X-Forwarded-For`) and the socket remote address are the
inputs; the result is the derived client address or `undefined`. -/
def getClientIp (xff xffCased : Option HeaderVal) (remoteAddress : Option String) :
    Option String :=
  let forwardedFor := jsOrHeader xff xffCased
  if headerTruthy forwardedFor then
    match forwardedFor with
    | none => none
    | some v =>
      let ips := headerFirst v
      let ipList := (jsSplitComma ips).map (fun ip => jsTrim ip)
      match firstPublicIp ipList with
      | some plainIp => some plainIp
      | none =>
        match ipList with
        | [] => none
        | first :: _ => some (stripIpv6Mapped first)
  else
    match remoteAddress with
    | some ra => if ra = "" then none else some (stripIpv6Mapped ra)
    | none => none

/-- `extractHeaderValue` from `src/lib/server-utils.ts`. -/
def extractHeaderValue (value : Option HeaderVal) : Option String :=
  if headerTruthy value then
    match value with
    | none => none
    | some (.str s) => some s
    | some (.list hd _) => some hd
  else none

/-- `extractBearerToken` from `src/lib/server-utils.ts`. -/
def extractBearerToken (authHeader : Option HeaderVal) : Option String :=
  match extractHeaderValue authHeader with
  | none => none
  | some header =>
    if header = "" then none
    else if jsStartsWith header "Bearer " then some (jsTrim (jsDrop header 7))
    else some header

/-- JavaScript `a || b` where `a` is `string | undefined`. -/
def jsOrStr (a b : Option String) : Option String :=
  match a with
  | none => b
  | some s => if s = "" then b else a

/-- `extractApiKey` from `src/lib/server-utils.ts`: header sources in order
`authorization`, `ContextEngine-API-Key`, `context-engine-api-key`,
`X-API-Key`, `x-api-key`, combined with JavaScript `||`. -/
def extractApiKey (authorization contextEngineApiKey contextEngineApiKeyLower
    xApiKey xApiKeyLower : Option HeaderVal) : Option String :=
  jsOrStr (extractBearerToken authorization)
    (jsOrStr (extractHeaderValue contextEngineApiKey)
      (jsOrStr (extractHeaderValue contextEngineApiKeyLower)
        (jsOrStr (extractHeaderValue xApiKey)
          (extractHeaderValue xApiKeyLower))))

/-! ### Spec-side reformulations (for the refinement claims C7 and C8) -/

/-- Modelled from the spec, §4.1: among the comma-split, trimmed entries of the
forwarding header prefer the first one that is not a private-range address;
if all are private fall back to the first entry; else the socket remote
address; a `::ffff:` prefix is stripped from any returned address. -/
def specClientIp (xff xffCased : Option HeaderVal) (remoteAddress : Option String) :
    Option String :=
  let forwarded := jsOrHeader xff xffCased
  if headerTruthy forwarded then
    match forwarded with
    | none => none
    | some v =>
      let entries := (jsSplitComma (headerFirst v)).map (fun ip => jsTrim ip)
      match entries.find? (fun ip => !(isPrivateIp (stripIpv6Mapped ip))) with
      | some ip => some (stripIpv6Mapped ip)
      | none =>
        match entries with
        | [] => none
        | first :: _ => some (stripIpv6Mapped first)
  else
    match remoteAddress with
    | some ra => if ra = "" then none else some (stripIpv6Mapped ra)
    | none => none

/-- First credential source yielding a non-empty value wins; the value of the
last source is returned as-is when no earlier source yields one. -/
def firstNonEmptyCredential : List (Option String) → Option String
  | [] => none
  | [v] => v
  | v :: rest =>
    match v with
    | none => firstNonEmptyCredential rest
    | some s => if s = "" then firstNonEmptyCredential rest else some s

/-- Modelled from the spec, §4.1 (as amended): credential resolution over the
five sources, skipping sources that yield an empty credential. -/
def specApiKey (authorization contextEngineApiKey contextEngineApiKeyLower
    xApiKey xApiKeyLower : Option HeaderVal) : Option String :=
  firstNonEmptyCredential
    [extractBearerToken authorization,
     extractHeaderValue contextEngineApiKey,
     extractHeaderValue contextEngineApiKeyLower,
     extractHeaderValue xApiKey,
     extractHeaderValue xApiKeyLower]

/-! ### Filesystem model

Paths are component lists relative to the filesystem root; `join(a, b)` is
`a ++ [b]`.  The filesystem is an association list from paths to entries
(first binding wins), together with counters of the `fs.mkdir` and
`fs.writeFile` calls issued.  `fs.access` tests existence; recursive `mkdir`
creates missing ancestors and fails when a regular file occupies the path or
an ancestor; `writeFile` overwrites the target and fails when the target is a
directory or the parent is not a directory. -/

abbrev FsPath := List String

/-- `engine` field of the default `settings.json` document. -/
structure EngineSettings where
  autoSetup : Bool
  defaultWorkflow : String
deriving DecidableEq, Repr

/-- `documentation` field of the default `settings.json` document. -/
structure DocumentationSettings where
  format : String
  autoSync : Bool
deriving DecidableEq, Repr

/-- The default `settings.json` document of `createDefaultConfigFiles`. -/
structure DefaultSettings where
  version : String
  engine : EngineSettings
  documentation : DocumentationSettings
  created : String
deriving DecidableEq, Repr

/-- One workflow entry of the default `workflows.json` document. -/
structure WorkflowSpec where
  name : String
  description : String
  enabled : Bool
deriving DecidableEq, Repr

/-- The default `workflows.json` document of `createDefaultConfigFiles`. -/
structure DefaultWorkflows where
  version : String
  planDocumentation : WorkflowSpec
  taskDocumentation : WorkflowSpec
  taskImplementation : WorkflowSpec
  created : String
deriving DecidableEq, Repr

def defaultSettings (created : String) : DefaultSettings :=
  { version := "1.0.0"
    engine := { autoSetup := true, defaultWorkflow := "task-documentation" }
    documentation := { format := "markdown", autoSync := true }
    created := created }

def defaultWorkflows (created : String) : DefaultWorkflows :=
  { version := "1.0.0"
    planDocumentation :=
      { name := "Plan Documentation"
        description :=
          "Create comprehensive strategic documentation for projects or major components"
        enabled := true }
    taskDocumentation :=
      { name := "Task Documentation"
        description := "Create detailed implementation specifications for specific work items"
        enabled := true }
    taskImplementation :=
      { name := "Task Implementation"
        description :=
          "Transform documented requirements into working code following test-driven development"
        enabled := true }
    created := created }

/-- File contents: arbitrary pre-existing bytes, or one of the two serialized
default config documents (`JSON.stringify(doc, null, 2)` is modelled
symbolically by the document it serializes). -/
inductive FileContent where
  | bytes (s : String)
  | settingsJson (doc : DefaultSettings)
  | workflowsJson (doc : DefaultWorkflows)
deriving DecidableEq, Repr

inductive FsEntry where
  | dir
  | file (content : FileContent)
deriving DecidableEq, Repr

/-- Filesystem state plus counters of issued mutation calls. -/
structure World where
  fs : List (FsPath × FsEntry)
  mkdirCalls : Nat
  writeCalls : Nat
deriving DecidableEq, Repr

def findEntry : List (FsPath × FsEntry) → FsPath → Option FsEntry
  | [], _ => none
  | (q, e) :: rest, p => if q = p then some e else findEntry rest p

def setEntry (fs : List (FsPath × FsEntry)) (p : FsPath) (e : FsEntry) :
    List (FsPath × FsEntry) :=
  (p, e) :: fs

/-- `fs.access(p)` (existence test, never throws in the embedding). -/
def accessOk (fs : List (FsPath × FsEntry)) (p : FsPath) : Bool :=
  (findEntry fs p).isSome

/-- The nonempty prefixes of a path, shortest first. -/
def pathPrefixes (p : FsPath) : List FsPath :=
  (List.range p.length).map (fun i => p.take (i + 1))

/-- Create each listed path as a directory in turn: a missing path is created,
an existing directory is a no-op, a regular file is an error (leaving the
directories already created in place). -/
def createDirs (w : World) : List FsPath → World × Option String
  | [] => (w, none)
  | q :: rest =>
    match findEntry w.fs q with
    | none => createDirs { w with fs := setEntry w.fs q .dir } rest
    | some .dir => createDirs w rest
    | some (.file _) => (w, some "EEXIST: file already exists")

/-- One `fs.mkdir(p, { recursive: true })` call. -/
def mkdirRecursive (w : World) (p : FsPath) : World × Option String :=
  createDirs { w with mkdirCalls := w.mkdirCalls + 1 } (pathPrefixes p)

/-- One `fs.writeFile(p, contents)` call. -/
def writeFile (w : World) (p : FsPath) (c : FileContent) : World × Option String :=
  let w := { w with writeCalls := w.writeCalls + 1 }
  if findEntry w.fs p = some .dir then
    (w, some "EISDIR: illegal operation on a directory")
  else if p.dropLast = [] ∨ findEntry w.fs p.dropLast = some .dir then
    ({ w with fs := setEntry w.fs p (.file c) }, none)
  else
    (w, some "ENOENT: no such file or directory")

/-! ### `src/lib/documentation-setup.ts` -/

def CONTEXT_ENGINE_DIR : String := ".context-engine"
def IMPLEMENTATION_DIR : String := "implementation"
def REQUIREMENTS_DIR : String := "requirements"
def CONFIG_DIR : String := "config"

def basePathOf (projectRoot : FsPath) : FsPath := projectRoot ++ [CONTEXT_ENGINE_DIR]
def implementationPathOf (projectRoot : FsPath) : FsPath :=
  basePathOf projectRoot ++ [IMPLEMENTATION_DIR]
def requirementsPathOf (projectRoot : FsPath) : FsPath :=
  basePathOf projectRoot ++ [REQUIREMENTS_DIR]
def configPathOf (projectRoot : FsPath) : FsPath := basePathOf projectRoot ++ [CONFIG_DIR]
def settingsPathOf (projectRoot : FsPath) : FsPath := configPathOf projectRoot ++ ["settings.json"]
def workflowsPathOf (projectRoot : FsPath) : FsPath :=
  configPathOf projectRoot ++ ["workflows.json"]

structure StructureFlags where
  implementation : Bool
  requirements : Bool
  config : Bool
deriving DecidableEq, Repr

structure ConfigFilesFlags where
  settings : Bool
  workflows : Bool
deriving DecidableEq, Repr

/-- `DocumentationStatus` (`exists` is a Lean keyword, hence `exists_`). -/
structure DocumentationStatus where
  exists_ : Bool
  structure_ : StructureFlags
  configFiles : ConfigFilesFlags
deriving DecidableEq, Repr

structure SetupResult where
  success : Bool
  message : String
  status : DocumentationStatus
deriving DecidableEq, Repr

/-- `checkDocumentationStructure`: pure existence checks.  The surrounding
`try`/`catch` is unreachable in the embedding because `fs.access` failures are
already mapped to `false` for each individual path. -/
def checkDocumentationStructure (fs : List (FsPath × FsEntry)) (projectRoot : FsPath) :
    DocumentationStatus :=
  let basePath := basePathOf projectRoot
  let baseExists := accessOk fs basePath
  if !baseExists then
    { exists_ := false
      structure_ := { implementation := false, requirements := false, config := false }
      configFiles := { settings := false, workflows := false } }
  else
    { exists_ := true
      structure_ :=
        { implementation := accessOk fs (implementationPathOf projectRoot)
          requirements := accessOk fs (requirementsPathOf projectRoot)
          config := accessOk fs (configPathOf projectRoot) }
      configFiles :=
        { settings := accessOk fs (settingsPathOf projectRoot)
          workflows := accessOk fs (workflowsPathOf projectRoot) } }

/-- `createDocumentationStructure`: base directory first, then the three
subdirectories (a `Promise.all` of independent `mkdir` calls, modelled in
program order); any underlying error is wrapped in a
"Failed to create documentation structure" error. -/
def createDocumentationStructure (w : World) (projectRoot : FsPath) :
    World × Option String :=
  let r0 := mkdirRecursive w (basePathOf projectRoot)
  match r0.2 with
  | some err => (r0.1, some ("Failed to create documentation structure: Error: " ++ err))
  | none =>
    let r1 := mkdirRecursive r0.1 (implementationPathOf projectRoot)
    let r2 := mkdirRecursive r1.1 (requirementsPathOf projectRoot)
    let r3 := mkdirRecursive r2.1 (configPathOf projectRoot)
    match r1.2 with
    | some err => (r3.1, some ("Failed to create documentation structure: Error: " ++ err))
    | none =>
      match r2.2 with
      | some err => (r3.1, some ("Failed to create documentation structure: Error: " ++ err))
      | none =>
        match r3.2 with
        | some err => (r3.1, some ("Failed to create documentation structure: Error: " ++ err))
        | none => (r3.1, none)

/-- `createDefaultConfigFiles`: write the two default JSON documents (a
`Promise.all` of the two writes, modelled in program order), the creation
timestamp captured at write time; any underlying error is wrapped in a
"Failed to create default config files" error. -/
def createDefaultConfigFiles (w : World) (projectRoot : FsPath) (now : String) :
    World × Option String :=
  let r1 := writeFile w (settingsPathOf projectRoot) (.settingsJson (defaultSettings now))
  let r2 := writeFile r1.1 (workflowsPathOf projectRoot) (.workflowsJson (defaultWorkflows now))
  match r1.2 with
  | some err => (r2.1, some ("Failed to create default config files: Error: " ++ err))
  | none =>
    match r2.2 with
    | some err => (r2.1, some ("Failed to create default config files: Error: " ++ err))
    | none => (r2.1, none)

deriving instance DecidableEq for Except

/-- The inline completeness condition of `setupDocumentationStructure` (all six
existence flags true). -/
def statusComplete (s : DocumentationStatus) : Bool :=
  s.exists_ && s.structure_.implementation && s.structure_.requirements &&
    s.structure_.config && s.configFiles.settings && s.configFiles.workflows

/-- The inline "create structure if it doesn't exist" condition. -/
def structureMissing (s : DocumentationStatus) : Bool :=
  !s.exists_ || !s.structure_.implementation || !s.structure_.requirements ||
    !s.structure_.config

/-- The inline "create config files if they don't exist" condition. -/
def configFilesMissing (s : DocumentationStatus) : Bool :=
  !s.configFiles.settings || !s.configFiles.workflows

/-- The outcome of one `setupDocumentationStructure` call: the returned
`SetupResult` or the thrown validation error, and the final world. -/
structure SetupRun where
  result : Except String SetupResult
  world : World
deriving Repr

/-- `setupDocumentationStructure(projectRoot)`.  The empty root models the
falsy (`""`/missing) argument rejected by the leading guard; `now` is the
timestamp `new Date().toISOString()` would produce during the call.  Thrown
creation errors are caught and turned into a failure result whose status is a
defensively recomputed check. -/
def setupDocumentationStructure (w : World) (projectRoot : FsPath) (now : String) :
    SetupRun :=
  if projectRoot.isEmpty then
    ⟨.error "Project root directory is required for documentation structure setup", w⟩
  else
    let status := checkDocumentationStructure w.fs projectRoot
    if statusComplete status then
      ⟨.ok { success := true
             message := "Documentation structure already exists and is complete"
             status := status }, w⟩
    else
      let r1 :=
        if structureMissing status then
          createDocumentationStructure w projectRoot
        else (w, none)
      match r1.2 with
      | some err =>
        let errorStatus := checkDocumentationStructure r1.1.fs projectRoot
        ⟨.ok { success := false
               message := "Failed to setup documentation structure: Error: " ++ err
               status := errorStatus }, r1.1⟩
      | none =>
        let r2 :=
          if configFilesMissing status then
            createDefaultConfigFiles r1.1 projectRoot now
          else (r1.1, none)
        match r2.2 with
        | some err =>
          let errorStatus := checkDocumentationStructure r2.1.fs projectRoot
          ⟨.ok { success := false
                 message := "Failed to setup documentation structure: Error: " ++ err
                 status := errorStatus }, r2.1⟩
        | none =>
          let finalStatus := checkDocumentationStructure r2.1.fs projectRoot
          ⟨.ok { success := true
                 message := "Documentation structure setup completed successfully"
                 status := finalStatus }, r2.1⟩

/-- The directory paths `setupDocumentationStructure` may create (every prefix
of the base path, and the three subdirectories). -/
def managedDirPaths (projectRoot : FsPath) : List FsPath :=
  pathPrefixes (basePathOf projectRoot) ++
    [implementationPathOf projectRoot, requirementsPathOf projectRoot,
     configPathOf projectRoot]

/-- The initial filesystem does not block the scaffold with entries of the
wrong kind: no regular file occupies a managed directory path (or an ancestor
of the base directory), and no directory occupies the two config file paths. -/
def wellShapedFor (fs : List (FsPath × FsEntry)) (projectRoot : FsPath) : Prop :=
  (∀ q ∈ managedDirPaths projectRoot, ∀ c, findEntry fs q ≠ some (.file c)) ∧
    findEntry fs (settingsPathOf projectRoot) ≠ some .dir ∧
    findEntry fs (workflowsPathOf projectRoot) ≠ some .dir

/-! ### `startContextEngine` — the Tool Orchestrator (`src/lib/api.ts`)

The explicit-project-root variant wired into `index.ts`
(`startContextEngine(projectRoot, clientIp, apiKey, serverUrl)`).  The two
collaborators are abstracted by their would-be outcomes: `setup` is the
outcome of `await setupDocumentationStructure(projectRoot)` (`Except.error` =
thrown), `api` is the outcome of the remote start-context-engine request
(`Except.error` = network failure or non-success HTTP status, carrying the
normalized error message).  The run records whether each collaborator was
actually invoked. -/

structure StartRun where
  result : Except String String
  setupCalled : Bool
  apiCalled : Bool
deriving DecidableEq, Repr

/-- JavaScript truthiness of the `projectRoot : string` argument (`none`
models a missing argument). -/
def strTruthy : Option String → Bool
  | none => false
  | some s => !(s = "")

def startContextEngine (projectRoot : Option String)
    (setup : Except String SetupResult) (api : Except String String) : StartRun :=
  if !(strTruthy projectRoot) then
    ⟨.error "Project root directory is required for context engine initialization",
      false, false⟩
  else
    match setup with
    | .error e =>
      ⟨.ok ("❌ Failed to setup local documentation structure: " ++ e), true, false⟩
    | .ok setupResult =>
      if setupResult.success then
        let documentationStatus :=
          "\n\n📁 Local Documentation Structure: " ++ setupResult.message
        match api with
        | .ok text =>
          let apiResponse :=
            if text = "" || text = "No content available" then
              "Context engine start request sent but no confirmation available."
            else text
          ⟨.ok (apiResponse ++ documentationStatus), true, true⟩
        | .error e =>
          ⟨.ok (("⚠️  ContextEngine API call failed: " ++ e) ++ documentationStatus),
            true, true⟩
      else
        ⟨.ok ("❌ Failed to setup local documentation structure: " ++
          setupResult.message), true, false⟩

/-! ### Auxiliary read operations sharing the Remote API Client -/

/-- Response handling of `fetchLibraryDocumentation` (`src/lib/api.ts`): both
sentinels and the empty body yield `null`; a thrown request error degrades to
a returned error string. -/
def fetchLibraryDocumentation (api : Except String String) : Option String :=
  match api with
  | .error e =>
    some ("Error fetching library documentation. Please try again later. Error: " ++ e)
  | .ok text =>
    if text = "" || text = "No content available" || text = "No context data available" then
      none
    else some text

/-- Response handling of `greet` (`src/lib/api.ts`): the empty body and the
"No content available" sentinel are replaced by a fixed fallback greeting; a
thrown request error degrades to a returned error string. -/
def greet (api : Except String String) : String :=
  match api with
  | .error e => "Greeting failed: Error: " ++ e
  | .ok text =>
    if text = "" || text = "No content available" then
      "Hello! API is working but no greeting content available."
    else text

/-! ### `/messages` session dispatch (`src/index.ts`, `handleSsePostMessage`) -/

inductive PostMessageOutcome where
  | errorResponse (status : Nat) (body : String)
  | delivered (sessionId : String)
deriving DecidableEq, Repr

/-- `handleSsePostMessage`: `sessionIdParam` is the `sessionId` query
parameter (`searchParams.get` result, `none` when absent, defaulted to `""`
by `?? ""`); `sessions` is the key set of the `sseTransports` table. -/
def handleSsePostMessage (sessionIdParam : Option String) (sessions : List String) :
    PostMessageOutcome :=
  let sessionId := sessionIdParam.getD ""
  if sessionId = "" then
    .errorResponse 400 "Missing sessionId parameter"
  else if sessions.contains sessionId then
    .delivered sessionId
  else
    .errorResponse 400 ("No transport found for sessionId: " ++ sessionId)

/-- A fully complete `DocumentationStatus`, used as a sample value. -/
def sampleCompleteStatus : DocumentationStatus :=
  { exists_ := true
    structure_ := { implementation := true, requirements := true, config := true }
    configFiles := { settings := true, workflows := true } }

/-- A sample world: full scaffold directories, a user-written `settings.json`
and no `workflows.json`. -/
def c5World : World :=
  { fs := [(basePathOf ["proj"], .dir),
           (implementationPathOf ["proj"], .dir),
           (requirementsPathOf ["proj"], .dir),
           (configPathOf ["proj"], .dir),
           (settingsPathOf ["proj"], .file (.bytes "user settings"))]
    mkdirCalls := 0
    writeCalls := 0 }

/-! ### Filesystem lemmas -/

theorem firstPublicIp_eq_find? (l : List String) :
    firstPublicIp l =
      (l.find? (fun ip => !(isPrivateIp (stripIpv6Mapped ip)))).map stripIpv6Mapped := by
  induction l with
  | nil => rfl
  | cons ip rest ih =>
    simp only [firstPublicIp, List.find?]
    by_cases h : isPrivateIp (stripIpv6Mapped ip)
    · simp [h, ih]
    · simp [h]

theorem findEntry_setEntry_self (fs : List (FsPath × FsEntry)) (p : FsPath) (e : FsEntry) :
    findEntry (setEntry fs p e) p = some e := by
  simp [findEntry, setEntry]

theorem findEntry_setEntry_ne (fs : List (FsPath × FsEntry)) (p q : FsPath) (e : FsEntry)
    (h : p ≠ q) : findEntry (setEntry fs p e) q = findEntry fs q := by
  simp [findEntry, setEntry, h]

theorem createDirs_preserves (l : List FsPath) (w : World) (p : FsPath) (e : FsEntry)
    (h : findEntry w.fs p = some e) : findEntry (createDirs w l).1.fs p = some e := by
  induction l generalizing w with
  | nil => simpa [createDirs]
  | cons q rest ih =>
    by_cases hqp : q = p
    · subst hqp
      cases e with
      | dir => simp only [createDirs, h]; exact ih _ h
      | file c => simp [createDirs, h]
    · rcases hq : findEntry w.fs q with _ | e'
      · simp only [createDirs, hq]
        exact ih _ (by simpa [findEntry_setEntry_ne _ _ _ _ hqp] using h)
      · cases e' with
        | dir => simp only [createDirs, hq]; exact ih _ h
        | file c => simp only [createDirs, hq]; exact h

theorem createDirs_untouched (l : List FsPath) (w : World) (p : FsPath)
    (h : p ∉ l) : findEntry (createDirs w l).1.fs p = findEntry w.fs p := by
  induction l generalizing w with
  | nil => simp [createDirs]
  | cons q rest ih =>
    have hqp : q ≠ p := fun hc => h (hc ▸ List.mem_cons_self _ _)
    have hrest : p ∉ rest := fun hc => h (List.mem_cons_of_mem _ hc)
    rcases hq : findEntry w.fs q with _ | e'
    · simp only [createDirs, hq]
      rw [ih _ hrest, findEntry_setEntry_ne _ _ _ _ hqp]
    · cases e' with
      | dir => simp only [createDirs, hq]; exact ih _ hrest
      | file c => simp only [createDirs, hq]

theorem createDirs_no_new_file (l : List FsPath) (w : World) (p : FsPath) (c : FileContent)
    (h : findEntry (createDirs w l).1.fs p = some (.file c)) :
    findEntry w.fs p = some (.file c) := by
  induction l generalizing w with
  | nil => simpa [createDirs] using h
  | cons q rest ih =>
    rcases hq : findEntry w.fs q with _ | e'
    · rw [createDirs] at h
      simp only [hq] at h
      have := ih _ h
      by_cases hqp : q = p
      · subst hqp
        rw [findEntry_setEntry_self] at this
        cases this
      · rwa [findEntry_setEntry_ne _ _ _ _ hqp] at this
    · cases e' with
      | dir =>
        rw [createDirs] at h
        simp only [hq] at h
        exact ih _ h
      | file c' =>
        rw [createDirs] at h
        simpa [hq] using h

theorem createDirs_ok (l : List FsPath) (w : World)
    (h : ∀ q ∈ l, ∀ c, findEntry w.fs q ≠ some (.file c)) :
    (createDirs w l).2 = none ∧
      ∀ q ∈ l, findEntry (createDirs w l).1.fs q = some .dir := by
  induction l generalizing w with
  | nil => simp [createDirs]
  | cons q rest ih =>
    rcases hq : findEntry w.fs q with _ | e'
    · have hrest : ∀ q' ∈ rest, ∀ c,
          findEntry (setEntry w.fs q .dir) q' ≠ some (.file c) := by
        intro q' hq' c
        by_cases hqq : q = q'
        · subst hqq; rw [findEntry_setEntry_self]; simp
        · rw [findEntry_setEntry_ne _ _ _ _ hqq]
          exact h q' (List.mem_cons_of_mem _ hq') c
      obtain ⟨he, hall⟩ := ih { w with fs := setEntry w.fs q .dir } hrest
      refine ⟨by simp only [createDirs, hq]; exact he, ?_⟩
      intro q' hq'
      rcases List.mem_cons.mp hq' with hqq | hmem
      · subst hqq
        simp only [createDirs, hq]
        exact createDirs_preserves _ _ _ _ (findEntry_setEntry_self _ _ _)
      · simp only [createDirs, hq]
        exact hall _ hmem
    · cases e' with
      | dir =>
        have hrest : ∀ q' ∈ rest, ∀ c, findEntry w.fs q' ≠ some (.file c) := by
          intro q' hq' c
          exact h q' (List.mem_cons_of_mem _ hq') c
        obtain ⟨he, hall⟩ := ih w hrest
        refine ⟨by simp only [createDirs, hq]; exact he, ?_⟩
        intro q' hq'
        rcases List.mem_cons.mp hq' with hqq | hmem
        · subst hqq
          simp only [createDirs, hq]
          exact createDirs_preserves _ _ _ _ hq
        · simp only [createDirs, hq]
          exact hall _ hmem
      | file c =>
        exact absurd hq (h q (List.mem_cons_self _ _) c)

theorem mkdirRecursive_fs (w : World) (p : FsPath) :
    (mkdirRecursive w p).1.fs = (createDirs { w with mkdirCalls := w.mkdirCalls + 1 }
      (pathPrefixes p)).1.fs := rfl

theorem mkdirRecursive_preserves (w : World) (p q : FsPath) (e : FsEntry)
    (h : findEntry w.fs q = some e) : findEntry (mkdirRecursive w p).1.fs q = some e := by
  rw [mkdirRecursive_fs]
  exact createDirs_preserves _ _ _ _ h

theorem mkdirRecursive_no_new_file (w : World) (p q : FsPath) (c : FileContent)
    (h : findEntry (mkdirRecursive w p).1.fs q = some (.file c)) :
    findEntry w.fs q = some (.file c) := by
  rw [mkdirRecursive_fs] at h
  exact createDirs_no_new_file (pathPrefixes p)
    { w with mkdirCalls := w.mkdirCalls + 1 } q c h

theorem mkdirRecursive_untouched (w : World) (p q : FsPath) (h : q ∉ pathPrefixes p) :
    findEntry (mkdirRecursive w p).1.fs q = findEntry w.fs q := by
  rw [mkdirRecursive_fs]
  exact createDirs_untouched _ _ _ h

theorem mkdirRecursive_ok (w : World) (p : FsPath)
    (h : ∀ q ∈ pathPrefixes p, ∀ c, findEntry w.fs q ≠ some (.file c)) :
    (mkdirRecursive w p).2 = none ∧
      ∀ q ∈ pathPrefixes p, findEntry (mkdirRecursive w p).1.fs q = some .dir := by
  exact createDirs_ok _ { w with mkdirCalls := w.mkdirCalls + 1 } h

/-! ### Path facts -/

theorem pathPrefixes_append_singleton (l : FsPath) (x : String) :
    pathPrefixes (l ++ [x]) = pathPrefixes l ++ [l ++ [x]] := by
  unfold pathPrefixes
  rw [List.length_append]
  simp only [List.length_cons, List.length_nil, Nat.zero_add]
  rw [List.range_succ, List.map_append]
  congr 1
  · apply List.map_congr_left
    intro i hi
    rw [List.mem_range] at hi
    exact List.take_append_of_le_length (by omega)
  · simp only [List.map_cons, List.map_nil]
    congr 1
    have hl : l.length + 1 = (l ++ [x]).length := by simp
    rw [hl, List.take_length]

theorem self_mem_pathPrefixes (p : FsPath) (h : p ≠ []) : p ∈ pathPrefixes p := by
  unfold pathPrefixes
  apply List.mem_map.mpr
  have hpos : 0 < p.length := List.length_pos.mpr h
  exact ⟨p.length - 1, by rw [List.mem_range]; omega,
    by rw [show p.length - 1 + 1 = p.length by omega, List.take_length]⟩

theorem length_le_of_mem_pathPrefixes (q p : FsPath) (h : q ∈ pathPrefixes p) :
    q.length ≤ p.length := by
  unfold pathPrefixes at h
  obtain ⟨i, _, rfl⟩ := List.mem_map.mp h
  rw [List.length_take]
  exact Nat.min_le_right _ _

theorem basePathOf_length (root : FsPath) : (basePathOf root).length = root.length + 1 := by
  simp [basePathOf]

theorem implementationPathOf_length (root : FsPath) :
    (implementationPathOf root).length = root.length + 2 := by
  simp [implementationPathOf, basePathOf]

theorem requirementsPathOf_length (root : FsPath) :
    (requirementsPathOf root).length = root.length + 2 := by
  simp [requirementsPathOf, basePathOf]

theorem configPathOf_length (root : FsPath) :
    (configPathOf root).length = root.length + 2 := by
  simp [configPathOf, basePathOf]

theorem settingsPathOf_length (root : FsPath) :
    (settingsPathOf root).length = root.length + 3 := by
  simp [settingsPathOf, configPathOf, basePathOf]

theorem workflowsPathOf_length (root : FsPath) :
    (workflowsPathOf root).length = root.length + 3 := by
  simp [workflowsPathOf, configPathOf, basePathOf]

theorem not_mem_managedDirPaths_of_long (p : FsPath) (root : FsPath)
    (h : root.length + 2 < p.length) : p ∉ managedDirPaths root := by
  intro hmem
  unfold managedDirPaths at hmem
  rcases List.mem_append.mp hmem with h1 | h2
  · have := length_le_of_mem_pathPrefixes _ _ h1
    rw [basePathOf_length] at this
    omega
  · simp only [List.mem_cons, List.mem_singleton] at h2
    rcases h2 with rfl | rfl | rfl | hf
    · rw [implementationPathOf_length] at h; omega
    · rw [requirementsPathOf_length] at h; omega
    · rw [configPathOf_length] at h; omega
    · exact absurd hf (List.not_mem_nil p)

theorem settingsPath_not_mem_managed (root : FsPath) :
    settingsPathOf root ∉ managedDirPaths root :=
  not_mem_managedDirPaths_of_long _ _ (by rw [settingsPathOf_length]; omega)

theorem workflowsPath_not_mem_managed (root : FsPath) :
    workflowsPathOf root ∉ managedDirPaths root :=
  not_mem_managedDirPaths_of_long _ _ (by rw [workflowsPathOf_length]; omega)

theorem settingsPath_ne_workflowsPath (root : FsPath) :
    settingsPathOf root ≠ workflowsPathOf root := by
  unfold settingsPathOf workflowsPathOf
  intro h
  have := List.append_cancel_left h
  simp at this

theorem settingsPath_dropLast (root : FsPath) :
    (settingsPathOf root).dropLast = configPathOf root := by
  unfold settingsPathOf
  exact List.dropLast_concat

theorem workflowsPath_dropLast (root : FsPath) :
    (workflowsPathOf root).dropLast = configPathOf root := by
  unfold workflowsPathOf
  exact List.dropLast_concat

theorem base_mem_managed (root : FsPath) : basePathOf root ∈ managedDirPaths root := by
  unfold managedDirPaths
  exact List.mem_append.mpr (Or.inl (self_mem_pathPrefixes _ (by simp [basePathOf])))

theorem impl_mem_managed (root : FsPath) :
    implementationPathOf root ∈ managedDirPaths root := by
  unfold managedDirPaths
  simp

theorem req_mem_managed (root : FsPath) :
    requirementsPathOf root ∈ managedDirPaths root := by
  unfold managedDirPaths
  simp

theorem config_mem_managed (root : FsPath) : configPathOf root ∈ managedDirPaths root := by
  unfold managedDirPaths
  simp

theorem pathPrefixes_base_sub_managed (root : FsPath) (q : FsPath)
    (h : q ∈ pathPrefixes (basePathOf root)) : q ∈ managedDirPaths root := by
  unfold managedDirPaths
  exact List.mem_append.mpr (Or.inl h)

theorem pathPrefixes_impl_sub_managed (root : FsPath) (q : FsPath)
    (h : q ∈ pathPrefixes (implementationPathOf root)) : q ∈ managedDirPaths root := by
  rw [implementationPathOf, pathPrefixes_append_singleton] at h
  rcases List.mem_append.mp h with h1 | h2
  · exact pathPrefixes_base_sub_managed _ _ h1
  · rw [List.mem_singleton] at h2
    subst h2
    exact impl_mem_managed root

theorem pathPrefixes_req_sub_managed (root : FsPath) (q : FsPath)
    (h : q ∈ pathPrefixes (requirementsPathOf root)) : q ∈ managedDirPaths root := by
  rw [requirementsPathOf, pathPrefixes_append_singleton] at h
  rcases List.mem_append.mp h with h1 | h2
  · exact pathPrefixes_base_sub_managed _ _ h1
  · rw [List.mem_singleton] at h2
    subst h2
    exact req_mem_managed root

theorem pathPrefixes_config_sub_managed (root : FsPath) (q : FsPath)
    (h : q ∈ pathPrefixes (configPathOf root)) : q ∈ managedDirPaths root := by
  rw [configPathOf, pathPrefixes_append_singleton] at h
  rcases List.mem_append.mp h with h1 | h2
  · exact pathPrefixes_base_sub_managed _ _ h1
  · rw [List.mem_singleton] at h2
    subst h2
    exact config_mem_managed root

theorem entry_dir_of_isSome_of_no_file (fs : List (FsPath × FsEntry)) (p : FsPath)
    (h1 : (findEntry fs p).isSome = true)
    (h2 : ∀ c, findEntry fs p ≠ some (.file c)) : findEntry fs p = some .dir := by
  rcases he : findEntry fs p with _ | e
  · rw [he] at h1; simp at h1
  · cases e with
    | dir => rfl
    | file c => exact absurd he (h2 c)

/-! ### `writeFile` and `createDefaultConfigFiles` lemmas -/

theorem writeFile_untouched (w : World) (p : FsPath) (c : FileContent) (q : FsPath)
    (h : q ≠ p) : findEntry (writeFile w p c).1.fs q = findEntry w.fs q := by
  simp only [writeFile]
  split
  · rfl
  · split
    · exact findEntry_setEntry_ne _ _ _ _ (fun hc => h hc.symm)
    · rfl

theorem writeFile_keeps (w : World) (p : FsPath) (c : FileContent) (q : FsPath)
    (h : (findEntry w.fs q).isSome = true) :
    (findEntry (writeFile w p c).1.fs q).isSome = true := by
  by_cases hqp : q = p
  · subst hqp
    simp only [writeFile]
    split
    · exact h
    · split
      · rw [findEntry_setEntry_self]; rfl
      · exact h
  · rw [writeFile_untouched _ _ _ _ hqp]
    exact h

theorem writeFile_ok (w : World) (p : FsPath) (c : FileContent)
    (h1 : findEntry w.fs p ≠ some .dir)
    (h2 : findEntry w.fs p.dropLast = some .dir) :
    (writeFile w p c).2 = none ∧
      (writeFile w p c).1.fs = setEntry w.fs p (.file c) := by
  simp only [writeFile]
  split
  · next hd => exact absurd hd h1
  · split
    · exact ⟨rfl, rfl⟩
    · next hcond => exact absurd (Or.inr h2) hcond

theorem createDefaultConfigFiles_untouched (w : World) (root : FsPath) (now : String)
    (p : FsPath) (h1 : p ≠ settingsPathOf root) (h2 : p ≠ workflowsPathOf root) :
    findEntry (createDefaultConfigFiles w root now).1.fs p = findEntry w.fs p := by
  simp only [createDefaultConfigFiles]
  have hu : findEntry (writeFile (writeFile w (settingsPathOf root)
      (.settingsJson (defaultSettings now))).1 (workflowsPathOf root)
      (.workflowsJson (defaultWorkflows now))).1.fs p = findEntry w.fs p := by
    rw [writeFile_untouched _ _ _ _ h2, writeFile_untouched _ _ _ _ h1]
  split
  · exact hu
  · split
    · exact hu
    · exact hu

theorem createDefaultConfigFiles_keeps (w : World) (root : FsPath) (now : String)
    (p : FsPath) (h : (findEntry w.fs p).isSome = true) :
    (findEntry (createDefaultConfigFiles w root now).1.fs p).isSome = true := by
  simp only [createDefaultConfigFiles]
  have hk : (findEntry (writeFile (writeFile w (settingsPathOf root)
      (.settingsJson (defaultSettings now))).1 (workflowsPathOf root)
      (.workflowsJson (defaultWorkflows now))).1.fs p).isSome = true :=
    writeFile_keeps _ _ _ _ (writeFile_keeps _ _ _ _ h)
  split
  · exact hk
  · split
    · exact hk
    · exact hk

theorem createDefaultConfigFiles_ok (w : World) (root : FsPath) (now : String)
    (hs : findEntry w.fs (settingsPathOf root) ≠ some .dir)
    (hw : findEntry w.fs (workflowsPathOf root) ≠ some .dir)
    (hc : findEntry w.fs (configPathOf root) = some .dir) :
    (createDefaultConfigFiles w root now).2 = none ∧
      findEntry (createDefaultConfigFiles w root now).1.fs (settingsPathOf root) =
        some (.file (.settingsJson (defaultSettings now))) ∧
      findEntry (createDefaultConfigFiles w root now).1.fs (workflowsPathOf root) =
        some (.file (.workflowsJson (defaultWorkflows now))) := by
  have hw1 := writeFile_ok w (settingsPathOf root) (.settingsJson (defaultSettings now))
    hs (by rw [settingsPath_dropLast]; exact hc)
  have hne := settingsPath_ne_workflowsPath root
  have hwf : findEntry (writeFile w (settingsPathOf root)
      (.settingsJson (defaultSettings now))).1.fs (workflowsPathOf root) ≠ some .dir := by
    rw [writeFile_untouched _ _ _ _ (fun h => hne h.symm)]
    exact hw
  have hcf : findEntry (writeFile w (settingsPathOf root)
      (.settingsJson (defaultSettings now))).1.fs (workflowsPathOf root).dropLast =
      some .dir := by
    rw [workflowsPath_dropLast]
    rw [writeFile_untouched _ _ _ _ (by
      intro h
      have := congrArg List.length h
      rw [configPathOf_length, settingsPathOf_length] at this
      omega)]
    exact hc
  have hw2 := writeFile_ok (writeFile w (settingsPathOf root)
    (.settingsJson (defaultSettings now))).1 (workflowsPathOf root)
    (.workflowsJson (defaultWorkflows now)) hwf hcf
  simp only [createDefaultConfigFiles, hw1.1, hw2.1]
  refine ⟨trivial, ?_, ?_⟩
  · rw [hw2.2, findEntry_setEntry_ne _ _ _ _ (Ne.symm hne), hw1.2, findEntry_setEntry_self]
  · rw [hw2.2, findEntry_setEntry_self]

/-! ### `createDocumentationStructure` lemmas -/

theorem basePathOf_ne_nil (root : FsPath) : basePathOf root ≠ [] := by
  intro hc
  have := congrArg List.length hc
  rw [basePathOf_length] at this
  simp at this

theorem implementationPathOf_ne_nil (root : FsPath) : implementationPathOf root ≠ [] := by
  intro hc
  have := congrArg List.length hc
  rw [implementationPathOf_length] at this
  simp at this

theorem requirementsPathOf_ne_nil (root : FsPath) : requirementsPathOf root ≠ [] := by
  intro hc
  have := congrArg List.length hc
  rw [requirementsPathOf_length] at this
  simp at this

theorem configPathOf_ne_nil (root : FsPath) : configPathOf root ≠ [] := by
  intro hc
  have := congrArg List.length hc
  rw [configPathOf_length] at this
  simp at this

theorem createDocumentationStructure_preserves (w : World) (root : FsPath) (p : FsPath)
    (e : FsEntry) (h : findEntry w.fs p = some e) :
    findEntry (createDocumentationStructure w root).1.fs p = some e := by
  have h0 := mkdirRecursive_preserves w (basePathOf root) p e h
  have h1 := mkdirRecursive_preserves _ (implementationPathOf root) p e h0
  have h2 := mkdirRecursive_preserves _ (requirementsPathOf root) p e h1
  have h3 := mkdirRecursive_preserves _ (configPathOf root) p e h2
  simp only [createDocumentationStructure]
  split
  · exact h0
  · split
    · exact h3
    · split
      · exact h3
      · split
        · exact h3
        · exact h3

theorem createDocumentationStructure_no_new_file (w : World) (root : FsPath) (p : FsPath)
    (c : FileContent)
    (h : findEntry (createDocumentationStructure w root).1.fs p = some (.file c)) :
    findEntry w.fs p = some (.file c) := by
  simp only [createDocumentationStructure] at h
  split at h
  · exact mkdirRecursive_no_new_file _ _ _ _ h
  · split at h
    · exact mkdirRecursive_no_new_file _ _ _ _ (mkdirRecursive_no_new_file _ _ _ _
        (mkdirRecursive_no_new_file _ _ _ _ (mkdirRecursive_no_new_file _ _ _ _ h)))
    · split at h
      · exact mkdirRecursive_no_new_file _ _ _ _ (mkdirRecursive_no_new_file _ _ _ _
          (mkdirRecursive_no_new_file _ _ _ _ (mkdirRecursive_no_new_file _ _ _ _ h)))
      · split at h
        · exact mkdirRecursive_no_new_file _ _ _ _ (mkdirRecursive_no_new_file _ _ _ _
            (mkdirRecursive_no_new_file _ _ _ _ (mkdirRecursive_no_new_file _ _ _ _ h)))
        · exact mkdirRecursive_no_new_file _ _ _ _ (mkdirRecursive_no_new_file _ _ _ _
            (mkdirRecursive_no_new_file _ _ _ _ (mkdirRecursive_no_new_file _ _ _ _ h)))

theorem createDocumentationStructure_untouched (w : World) (root : FsPath) (p : FsPath)
    (hp : p ∉ managedDirPaths root) :
    findEntry (createDocumentationStructure w root).1.fs p = findEntry w.fs p := by
  have hb : p ∉ pathPrefixes (basePathOf root) :=
    fun hc => hp (pathPrefixes_base_sub_managed _ _ hc)
  have hi : p ∉ pathPrefixes (implementationPathOf root) :=
    fun hc => hp (pathPrefixes_impl_sub_managed _ _ hc)
  have hr : p ∉ pathPrefixes (requirementsPathOf root) :=
    fun hc => hp (pathPrefixes_req_sub_managed _ _ hc)
  have hcg : p ∉ pathPrefixes (configPathOf root) :=
    fun hc => hp (pathPrefixes_config_sub_managed _ _ hc)
  have u0 := mkdirRecursive_untouched w (basePathOf root) p hb
  have uAll : findEntry (mkdirRecursive (mkdirRecursive (mkdirRecursive
      (mkdirRecursive w (basePathOf root)).1 (implementationPathOf root)).1
      (requirementsPathOf root)).1 (configPathOf root)).1.fs p = findEntry w.fs p := by
    rw [mkdirRecursive_untouched _ _ _ hcg, mkdirRecursive_untouched _ _ _ hr,
      mkdirRecursive_untouched _ _ _ hi, u0]
  simp only [createDocumentationStructure]
  split
  · exact u0
  · split
    · exact uAll
    · split
      · exact uAll
      · split
        · exact uAll
        · exact uAll

theorem createDocumentationStructure_ok (w : World) (root : FsPath)
    (h : ∀ q ∈ managedDirPaths root, ∀ c, findEntry w.fs q ≠ some (.file c)) :
    (createDocumentationStructure w root).2 = none ∧
      findEntry (createDocumentationStructure w root).1.fs (basePathOf root) = some .dir ∧
      findEntry (createDocumentationStructure w root).1.fs (implementationPathOf root) =
        some .dir ∧
      findEntry (createDocumentationStructure w root).1.fs (requirementsPathOf root) =
        some .dir ∧
      findEntry (createDocumentationStructure w root).1.fs (configPathOf root) =
        some .dir := by
  have hcond0 : ∀ q ∈ pathPrefixes (basePathOf root), ∀ c,
      findEntry w.fs q ≠ some (.file c) :=
    fun q hq c => h q (pathPrefixes_base_sub_managed _ _ hq) c
  obtain ⟨he0, hd0⟩ := mkdirRecursive_ok w (basePathOf root) hcond0
  have hcond1 : ∀ q ∈ pathPrefixes (implementationPathOf root), ∀ c,
      findEntry (mkdirRecursive w (basePathOf root)).1.fs q ≠ some (.file c) := by
    intro q hq c hfile
    exact h q (pathPrefixes_impl_sub_managed _ _ hq) c
      (mkdirRecursive_no_new_file _ _ _ _ hfile)
  obtain ⟨he1, hd1⟩ := mkdirRecursive_ok _ (implementationPathOf root) hcond1
  have hcond2 : ∀ q ∈ pathPrefixes (requirementsPathOf root), ∀ c,
      findEntry (mkdirRecursive (mkdirRecursive w (basePathOf root)).1
        (implementationPathOf root)).1.fs q ≠ some (.file c) := by
    intro q hq c hfile
    exact h q (pathPrefixes_req_sub_managed _ _ hq) c
      (mkdirRecursive_no_new_file _ _ _ _ (mkdirRecursive_no_new_file _ _ _ _ hfile))
  obtain ⟨he2, hd2⟩ := mkdirRecursive_ok _ (requirementsPathOf root) hcond2
  have hcond3 : ∀ q ∈ pathPrefixes (configPathOf root), ∀ c,
      findEntry (mkdirRecursive (mkdirRecursive (mkdirRecursive w (basePathOf root)).1
        (implementationPathOf root)).1 (requirementsPathOf root)).1.fs q ≠
        some (.file c) := by
    intro q hq c hfile
    exact h q (pathPrefixes_config_sub_managed _ _ hq) c
      (mkdirRecursive_no_new_file _ _ _ _ (mkdirRecursive_no_new_file _ _ _ _
        (mkdirRecursive_no_new_file _ _ _ _ hfile)))
  obtain ⟨he3, hd3⟩ := mkdirRecursive_ok _ (configPathOf root) hcond3
  have heq : createDocumentationStructure w root =
      ((mkdirRecursive (mkdirRecursive (mkdirRecursive
        (mkdirRecursive w (basePathOf root)).1 (implementationPathOf root)).1
        (requirementsPathOf root)).1 (configPathOf root)).1, none) := by
    simp only [createDocumentationStructure, he0, he1, he2, he3]
  rw [heq]
  refine ⟨rfl, ?_, ?_, ?_, ?_⟩
  · exact mkdirRecursive_preserves _ _ _ _ (mkdirRecursive_preserves _ _ _ _
      (mkdirRecursive_preserves _ _ _ _
        (hd0 _ (self_mem_pathPrefixes _ (basePathOf_ne_nil root)))))
  · exact mkdirRecursive_preserves _ _ _ _ (mkdirRecursive_preserves _ _ _ _
      (hd1 _ (self_mem_pathPrefixes _ (implementationPathOf_ne_nil root))))
  · exact mkdirRecursive_preserves _ _ _ _
      (hd2 _ (self_mem_pathPrefixes _ (requirementsPathOf_ne_nil root)))
  · exact hd3 _ (self_mem_pathPrefixes _ (configPathOf_ne_nil root))

/-! ### `setupDocumentationStructure` lemmas -/

theorem statusComplete_check (fs : List (FsPath × FsEntry)) (root : FsPath) :
    statusComplete (checkDocumentationStructure fs root) =
      (accessOk fs (basePathOf root) && accessOk fs (implementationPathOf root) &&
        accessOk fs (requirementsPathOf root) && accessOk fs (configPathOf root) &&
        accessOk fs (settingsPathOf root) && accessOk fs (workflowsPathOf root)) := by
  unfold checkDocumentationStructure statusComplete
  by_cases hb : accessOk fs (basePathOf root) <;> simp [hb]

theorem check_flags_access (fs : List (FsPath × FsEntry)) (root : FsPath) :
    ((checkDocumentationStructure fs root).exists_ = true →
      accessOk fs (basePathOf root) = true) ∧
    ((checkDocumentationStructure fs root).structure_.implementation = true →
      accessOk fs (implementationPathOf root) = true) ∧
    ((checkDocumentationStructure fs root).structure_.requirements = true →
      accessOk fs (requirementsPathOf root) = true) ∧
    ((checkDocumentationStructure fs root).structure_.config = true →
      accessOk fs (configPathOf root) = true) ∧
    ((checkDocumentationStructure fs root).configFiles.settings = true →
      accessOk fs (settingsPathOf root) = true) ∧
    ((checkDocumentationStructure fs root).configFiles.workflows = true →
      accessOk fs (workflowsPathOf root) = true) := by
  unfold checkDocumentationStructure
  by_cases hb : accessOk fs (basePathOf root) <;> simp [hb]

theorem setup_already_complete (w : World) (root : FsPath) (now : String)
    (hroot : root ≠ [])
    (hc : statusComplete (checkDocumentationStructure w.fs root) = true) :
    setupDocumentationStructure w root now =
      ⟨.ok { success := true
             message := "Documentation structure already exists and is complete"
             status := checkDocumentationStructure w.fs root }, w⟩ := by
  have hrootE : root.isEmpty = false := by simp [List.isEmpty_iff, hroot]
  simp [setupDocumentationStructure, hrootE, hc]

theorem setup_run_eq (w : World) (root : FsPath) (now : String) (w1 w2 : World)
    (hrootE : root.isEmpty = false)
    (hnc : statusComplete (checkDocumentationStructure w.fs root) = false)
    (hr1 : (if structureMissing (checkDocumentationStructure w.fs root) then
        createDocumentationStructure w root else (w, none)) = (w1, none))
    (hr2 : (if configFilesMissing (checkDocumentationStructure w.fs root) then
        createDefaultConfigFiles w1 root now else (w1, none)) = (w2, none)) :
    setupDocumentationStructure w root now =
      ⟨.ok { success := true
             message := "Documentation structure setup completed successfully"
             status := checkDocumentationStructure w2.fs root }, w2⟩ := by
  simp only [setupDocumentationStructure, hrootE, Bool.false_eq_true, if_false, hnc, hr1, hr2]

theorem ne_of_length_ne (p q : FsPath) (h : p.length ≠ q.length) : p ≠ q :=
  fun hc => h (by rw [hc])

theorem setup_world_preserves (w : World) (root : FsPath) (now : String) (p : FsPath)
    (e : FsEntry) (h : findEntry w.fs p = some e)
    (h1 : p ≠ settingsPathOf root) (h2 : p ≠ workflowsPathOf root) :
    findEntry (setupDocumentationStructure w root now).world.fs p = some e := by
  have hw1 : findEntry (if structureMissing (checkDocumentationStructure w.fs root) then
      createDocumentationStructure w root else (w, none)).1.fs p = some e := by
    split
    · exact createDocumentationStructure_preserves _ _ _ _ h
    · exact h
  have hw2 : findEntry (if configFilesMissing (checkDocumentationStructure w.fs root) then
      createDefaultConfigFiles (if structureMissing (checkDocumentationStructure w.fs root)
        then createDocumentationStructure w root else (w, none)).1 root now
      else ((if structureMissing (checkDocumentationStructure w.fs root) then
        createDocumentationStructure w root else (w, none)).1, none)).1.fs p = some e := by
    split
    · rw [createDefaultConfigFiles_untouched _ _ _ _ h1 h2]
      exact hw1
    · exact hw1
  simp only [setupDocumentationStructure]
  split
  · exact h
  · split
    · exact h
    · split
      · exact hw1
      · split
        · exact hw2
        · exact hw2

theorem setup_world_keeps (w : World) (root : FsPath) (now : String) (p : FsPath)
    (h : (findEntry w.fs p).isSome = true) :
    (findEntry (setupDocumentationStructure w root now).world.fs p).isSome = true := by
  have hw1 : (findEntry (if structureMissing (checkDocumentationStructure w.fs root) then
      createDocumentationStructure w root else (w, none)).1.fs p).isSome = true := by
    split
    · obtain ⟨e, he⟩ := Option.isSome_iff_exists.mp h
      rw [createDocumentationStructure_preserves _ _ _ _ he]
      rfl
    · exact h
  have hw2 : (findEntry (if configFilesMissing (checkDocumentationStructure w.fs root) then
      createDefaultConfigFiles (if structureMissing (checkDocumentationStructure w.fs root)
        then createDocumentationStructure w root else (w, none)).1 root now
      else ((if structureMissing (checkDocumentationStructure w.fs root) then
        createDocumentationStructure w root else (w, none)).1, none)).1.fs p).isSome =
      true := by
    split
    · exact createDefaultConfigFiles_keeps _ _ _ _ hw1
    · exact hw1
  simp only [setupDocumentationStructure]
  split
  · exact h
  · split
    · exact h
    · split
      · exact hw1
      · split
        · exact hw2
        · exact hw2

theorem setup_not_complete_run (w : World) (root : FsPath) (now : String)
    (hroot : root ≠ []) (hshape : wellShapedFor w.fs root)
    (hnc : statusComplete (checkDocumentationStructure w.fs root) = false) :
    (setupDocumentationStructure w root now).result =
      .ok { success := true
            message := "Documentation structure setup completed successfully"
            status := checkDocumentationStructure
              (setupDocumentationStructure w root now).world.fs root } ∧
    statusComplete (checkDocumentationStructure
      (setupDocumentationStructure w root now).world.fs root) = true := by
  have hrootE : root.isEmpty = false := by simp [List.isEmpty_iff, hroot]
  obtain ⟨hnofile, hsdir0, hwdir0⟩ := hshape
  obtain ⟨hfb, hfi, hfr, hfc, hfs, hfw⟩ := check_flags_access w.fs root
  have stage1 : ∃ w1, (if structureMissing (checkDocumentationStructure w.fs root) then
        createDocumentationStructure w root else (w, none)) = (w1, none) ∧
      findEntry w1.fs (basePathOf root) = some .dir ∧
      findEntry w1.fs (implementationPathOf root) = some .dir ∧
      findEntry w1.fs (requirementsPathOf root) = some .dir ∧
      findEntry w1.fs (configPathOf root) = some .dir ∧
      findEntry w1.fs (settingsPathOf root) = findEntry w.fs (settingsPathOf root) ∧
      findEntry w1.fs (workflowsPathOf root) = findEntry w.fs (workflowsPathOf root) := by
    by_cases hstruct : structureMissing (checkDocumentationStructure w.fs root) = true
    · obtain ⟨he1, hb1, hi1, hr1, hc1⟩ := createDocumentationStructure_ok w root hnofile
      refine ⟨(createDocumentationStructure w root).1, ?_, hb1, hi1, hr1, hc1, ?_, ?_⟩
      · rw [if_pos hstruct, ← he1]
      · exact createDocumentationStructure_untouched _ _ _ (settingsPath_not_mem_managed root)
      · exact createDocumentationStructure_untouched _ _ _ (workflowsPath_not_mem_managed root)
    · rw [Bool.not_eq_true] at hstruct
      unfold structureMissing at hstruct
      simp only [Bool.or_eq_false_iff, Bool.not_eq_false'] at hstruct
      obtain ⟨⟨⟨hx, himpl⟩, hreq⟩, hconf⟩ := hstruct
      have hbdir : findEntry w.fs (basePathOf root) = some .dir :=
        entry_dir_of_isSome_of_no_file _ _ (hfb hx)
          (hnofile _ (base_mem_managed root))
      have hidir : findEntry w.fs (implementationPathOf root) = some .dir :=
        entry_dir_of_isSome_of_no_file _ _ (hfi himpl)
          (hnofile _ (impl_mem_managed root))
      have hrdir : findEntry w.fs (requirementsPathOf root) = some .dir :=
        entry_dir_of_isSome_of_no_file _ _ (hfr hreq)
          (hnofile _ (req_mem_managed root))
      have hcdir : findEntry w.fs (configPathOf root) = some .dir :=
        entry_dir_of_isSome_of_no_file _ _ (hfc hconf)
          (hnofile _ (config_mem_managed root))
      exact ⟨w, by simp [structureMissing, hx, himpl, hreq, hconf],
        hbdir, hidir, hrdir, hcdir, rfl, rfl⟩
  obtain ⟨w1, hr1, hb1, hi1, hr1d, hc1, hset1, hwf1⟩ := stage1
  have stage2 : ∃ w2, (if configFilesMissing (checkDocumentationStructure w.fs root) then
        createDefaultConfigFiles w1 root now else (w1, none)) = (w2, none) ∧
      (findEntry w2.fs (settingsPathOf root)).isSome = true ∧
      (findEntry w2.fs (workflowsPathOf root)).isSome = true ∧
      findEntry w2.fs (basePathOf root) = some .dir ∧
      findEntry w2.fs (implementationPathOf root) = some .dir ∧
      findEntry w2.fs (requirementsPathOf root) = some .dir ∧
      findEntry w2.fs (configPathOf root) = some .dir := by
    by_cases hfiles : configFilesMissing (checkDocumentationStructure w.fs root) = true
    · have hsne : findEntry w1.fs (settingsPathOf root) ≠ some .dir := by
        rw [hset1]; exact hsdir0
      have hwne : findEntry w1.fs (workflowsPathOf root) ≠ some .dir := by
        rw [hwf1]; exact hwdir0
      obtain ⟨he2, hset2, hwf2⟩ := createDefaultConfigFiles_ok w1 root now hsne hwne hc1
      refine ⟨(createDefaultConfigFiles w1 root now).1, ?_, ?_, ?_, ?_, ?_, ?_, ?_⟩
      · rw [if_pos hfiles, ← he2]
      · rw [hset2]; rfl
      · rw [hwf2]; rfl
      · rw [createDefaultConfigFiles_untouched _ _ _ _
          (ne_of_length_ne _ _ (by rw [basePathOf_length, settingsPathOf_length]; omega))
          (ne_of_length_ne _ _ (by rw [basePathOf_length, workflowsPathOf_length]; omega))]
        exact hb1
      · rw [createDefaultConfigFiles_untouched _ _ _ _
          (ne_of_length_ne _ _
            (by rw [implementationPathOf_length, settingsPathOf_length]; omega))
          (ne_of_length_ne _ _
            (by rw [implementationPathOf_length, workflowsPathOf_length]; omega))]
        exact hi1
      · rw [createDefaultConfigFiles_untouched _ _ _ _
          (ne_of_length_ne _ _
            (by rw [requirementsPathOf_length, settingsPathOf_length]; omega))
          (ne_of_length_ne _ _
            (by rw [requirementsPathOf_length, workflowsPathOf_length]; omega))]
        exact hr1d
      · rw [createDefaultConfigFiles_untouched _ _ _ _
          (ne_of_length_ne _ _ (by rw [configPathOf_length, settingsPathOf_length]; omega))
          (ne_of_length_ne _ _ (by rw [configPathOf_length, workflowsPathOf_length]; omega))]
        exact hc1
    · rw [Bool.not_eq_true] at hfiles
      unfold configFilesMissing at hfiles
      simp only [Bool.or_eq_false_iff, Bool.not_eq_false'] at hfiles
      obtain ⟨hsflag, hwflag⟩ := hfiles
      refine ⟨w1, by simp [configFilesMissing, hsflag, hwflag], ?_, ?_, hb1, hi1, hr1d, hc1⟩
      · rw [hset1]; exact hfs hsflag
      · rw [hwf1]; exact hfw hwflag
  obtain ⟨w2, hr2, hs2, hw2, hb2, hi2, hr2d, hc2⟩ := stage2
  have hrun := setup_run_eq w root now w1 w2 hrootE hnc hr1 hr2
  rw [hrun]
  refine ⟨rfl, ?_⟩
  rw [statusComplete_check]
  simp only [accessOk, hb2, hi2, hr2d, hc2, hs2, hw2]
  simp

/-! ### Claim theorems -/

/-- C1: whenever the project root is truthy and local scaffold synchronization
fails — `setupDocumentationStructure` throws, or returns `success = false` —
the remote start-context-engine call is never attempted (`apiCalled = false`)
and the start operation returns a composed text carrying only the
failure-prefixed message. -/
theorem startContextEngine_failFast (projectRoot : Option String)
    (setup : Except String SetupResult) (api : Except String String)
    (hroot : strTruthy projectRoot = true) :
    (∀ e, setup = .error e →
      startContextEngine projectRoot setup api =
        ⟨.ok ("❌ Failed to setup local documentation structure: " ++ e),
          true, false⟩) ∧
    (∀ r, setup = .ok r → r.success = false →
      startContextEngine projectRoot setup api =
        ⟨.ok ("❌ Failed to setup local documentation structure: " ++ r.message),
          true, false⟩) := by
  constructor
  · intro e he
    subst he
    simp [startContextEngine, hroot]
  · intro r hr hs
    subst hr
    simp [startContextEngine, hroot, hs]

theorem startContextEngine_failFast_witness :
    startContextEngine (some "/home/p") (.error "EACCES: permission denied") (.ok "started") =
      ⟨.ok "❌ Failed to setup local documentation structure: EACCES: permission denied",
        true, false⟩ :=
  (startContextEngine_failFast (some "/home/p") (.error "EACCES: permission denied")
    (.ok "started") (by decide)).1 "EACCES: permission denied" rfl

/-- C2 counterexample: with a truthy root, a successful local setup and a
failing remote call, the wired start operation does not throw — it returns a
composed text whose remote part is a warning-prefixed failure message. -/
theorem startContextEngine_remoteFailure_no_throw :
    startContextEngine (some "/home/p")
        (.ok { success := true
               message := "Documentation structure setup completed successfully"
               status := sampleCompleteStatus })
        (.error "Unauthorized. Please check your API key.") =
      ⟨.ok ("⚠️  ContextEngine API call failed: Unauthorized. Please check your API key."
          ++ "\n\n📁 Local Documentation Structure: Documentation structure setup completed successfully"),
        true, true⟩ := by
  decide

/-- C2 (amended): when local synchronization succeeds but the remote call
fails, the invocation does not throw: it returns a composed text whose remote
part is the warning-prefixed wrapped API error, concatenated with the local
success status line. -/
theorem startContextEngine_remoteFailure_degrades (projectRoot : Option String)
    (r : SetupResult) (e : String)
    (hroot : strTruthy projectRoot = true) (hs : r.success = true) :
    startContextEngine projectRoot (.ok r) (.error e) =
      ⟨.ok (("⚠️  ContextEngine API call failed: " ++ e) ++
        ("\n\n📁 Local Documentation Structure: " ++ r.message)), true, true⟩ := by
  simp [startContextEngine, hroot, hs]

theorem startContextEngine_remoteFailure_degrades_witness :
    startContextEngine (some "/p")
        (.ok { success := true, message := "m", status := sampleCompleteStatus })
        (.error "boom") =
      ⟨.ok (("⚠️  ContextEngine API call failed: " ++ "boom") ++
        ("\n\n📁 Local Documentation Structure: " ++ "m")), true, true⟩ :=
  startContextEngine_remoteFailure_degrades (some "/p")
    { success := true, message := "m", status := sampleCompleteStatus } "boom"
    (by decide) rfl

/-- C4: with an empty or missing project root the start operation throws the
validation error immediately, and neither the scaffold synchronizer nor the
remote client is invoked — no filesystem operation and no network call
happens. -/
theorem startContextEngine_validation (projectRoot : Option String)
    (setup : Except String SetupResult) (api : Except String String)
    (hroot : strTruthy projectRoot = false) :
    startContextEngine projectRoot setup api =
      ⟨.error "Project root directory is required for context engine initialization",
        false, false⟩ := by
  simp [startContextEngine, hroot]

theorem startContextEngine_validation_witness :
    startContextEngine none
        (.ok { success := true, message := "m", status := sampleCompleteStatus })
        (.ok "started") =
      ⟨.error "Project root directory is required for context engine initialization",
        false, false⟩ :=
  startContextEngine_validation none
    (.ok { success := true, message := "m", status := sampleCompleteStatus })
    (.ok "started") (by decide)

/-- C3: for every non-empty project root, on a filesystem where no entry of
the wrong kind blocks the scaffold (no regular file on a managed directory
path, no directory at a config file path), Synchronize yields a fully complete
status (all six existence flags true) after the first call, and the second
call returns success with the "already exists and is complete" message while
performing no filesystem mutation — the returned world (filesystem, mkdir
counter, write counter) is exactly the world after the first call. -/
theorem synchronize_idempotent (w : World) (root : FsPath) (now now2 : String)
    (hroot : root ≠ []) (hshape : wellShapedFor w.fs root) :
    statusComplete (checkDocumentationStructure
      (setupDocumentationStructure w root now).world.fs root) = true ∧
    setupDocumentationStructure (setupDocumentationStructure w root now).world root now2 =
      ⟨.ok { success := true
             message := "Documentation structure already exists and is complete"
             status := checkDocumentationStructure
               (setupDocumentationStructure w root now).world.fs root },
        (setupDocumentationStructure w root now).world⟩ := by
  have hcomplete : statusComplete (checkDocumentationStructure
      (setupDocumentationStructure w root now).world.fs root) = true := by
    by_cases hc : statusComplete (checkDocumentationStructure w.fs root) = true
    · rw [setup_already_complete w root now hroot hc]
      exact hc
    · rw [Bool.not_eq_true] at hc
      exact (setup_not_complete_run w root now hroot hshape hc).2
  exact ⟨hcomplete, setup_already_complete _ root now2 hroot hcomplete⟩

theorem synchronize_idempotent_witness :
    statusComplete (checkDocumentationStructure
      (setupDocumentationStructure ⟨[], 0, 0⟩ ["home", "p"] "T0").world.fs
      ["home", "p"]) = true ∧
    setupDocumentationStructure
        (setupDocumentationStructure ⟨[], 0, 0⟩ ["home", "p"] "T0").world
        ["home", "p"] "T1" =
      ⟨.ok { success := true
             message := "Documentation structure already exists and is complete"
             status := checkDocumentationStructure
               (setupDocumentationStructure ⟨[], 0, 0⟩ ["home", "p"] "T0").world.fs
               ["home", "p"] },
        (setupDocumentationStructure ⟨[], 0, 0⟩ ["home", "p"] "T0").world⟩ :=
  synchronize_idempotent ⟨[], 0, 0⟩ ["home", "p"] "T0" "T1" (by decide)
    ⟨fun q _ c => by simp [findEntry], by simp [findEntry], by simp [findEntry]⟩

/-- C5 counterexample: on a filesystem where the scaffold directories and a
user-written `settings.json` exist but `workflows.json` is missing,
Synchronize overwrites the pre-existing `settings.json` content — the claim
that every pre-existing file keeps unchanged content is false. -/
theorem synchronize_overwrites_settings :
    findEntry c5World.fs (settingsPathOf ["proj"]) =
      some (.file (.bytes "user settings")) ∧
    findEntry (setupDocumentationStructure c5World ["proj"] "T0").world.fs
        (settingsPathOf ["proj"]) ≠ some (.file (.bytes "user settings")) ∧
    findEntry (setupDocumentationStructure c5World ["proj"] "T0").world.fs
        (settingsPathOf ["proj"]) =
      some (.file (.settingsJson (defaultSettings "T0"))) := by
  decide

/-- C5 (amended): Synchronize never deletes existing content — every
pre-existing entry still exists after the call, and every pre-existing entry
other than the two config files (`settings.json`, `workflows.json`) keeps its
exact content; only those two files may be rewritten (with fresh default
documents).  In particular, when only the base directory and one subdirectory
pre-exist, the pre-existing subdirectory and its contents are intact. -/
theorem synchronize_never_destroys (w : World) (root : FsPath) (now : String) :
    (∀ p e, findEntry w.fs p = some e → p ≠ settingsPathOf root →
      p ≠ workflowsPathOf root →
      findEntry (setupDocumentationStructure w root now).world.fs p = some e) ∧
    (∀ p, (findEntry w.fs p).isSome = true →
      (findEntry (setupDocumentationStructure w root now).world.fs p).isSome = true) :=
  ⟨fun p e he h1 h2 => setup_world_preserves w root now p e he h1 h2,
   fun p hp => setup_world_keeps w root now p hp⟩

theorem synchronize_never_destroys_witness :
    findEntry (setupDocumentationStructure c5World ["proj"] "T0").world.fs
        (implementationPathOf ["proj"]) = some .dir ∧
    (findEntry (setupDocumentationStructure c5World ["proj"] "T0").world.fs
        (settingsPathOf ["proj"])).isSome = true :=
  ⟨(synchronize_never_destroys c5World ["proj"] "T0").1
      (implementationPathOf ["proj"]) .dir (by decide) (by decide) (by decide),
   (synchronize_never_destroys c5World ["proj"] "T0").2
      (settingsPathOf ["proj"]) (by decide)⟩

/-- C6 counterexample: for the library-documentation lookup (a text-returning
remote operation), a response body equal to the sentinel
"No context data available" is mapped to `null` — it is not passed through
verbatim as meaningful content, and the "No content available" sentinel is
likewise mapped to `null` rather than to a generic fallback message. -/
theorem fetchLibraryDocumentation_sentinel_null :
    fetchLibraryDocumentation (.ok "No context data available") = none ∧
    none ≠ some "No context data available" ∧
    fetchLibraryDocumentation (.ok "No content available") = none := by
  decide

/-- C6 (amended): for the start-engine and greet operations an empty body or
the literal "No content available" is replaced by an operation-specific
fallback message and any other body — including the literal
"No context data available" — is passed through verbatim; for the
library-documentation lookup an empty body and both sentinels yield `null`
(no content), and any other body is passed through. -/
theorem contentNormalization (projectRoot : Option String) (r : SetupResult) (t : String)
    (hroot : strTruthy projectRoot = true) (hs : r.success = true)
    (ht1 : t ≠ "") (ht2 : t ≠ "No content available") :
    (startContextEngine projectRoot (.ok r) (.ok t)).result =
      .ok (t ++ ("\n\n📁 Local Documentation Structure: " ++ r.message)) ∧
    (startContextEngine projectRoot (.ok r) (.ok "No content available")).result =
      .ok ("Context engine start request sent but no confirmation available." ++
        ("\n\n📁 Local Documentation Structure: " ++ r.message)) ∧
    (startContextEngine projectRoot (.ok r) (.ok "")).result =
      .ok ("Context engine start request sent but no confirmation available." ++
        ("\n\n📁 Local Documentation Structure: " ++ r.message)) ∧
    greet (.ok "No content available") =
      "Hello! API is working but no greeting content available." ∧
    greet (.ok "No context data available") = "No context data available" ∧
    (t ≠ "No context data available" → fetchLibraryDocumentation (.ok t) = some t) ∧
    fetchLibraryDocumentation (.ok "No content available") = none ∧
    fetchLibraryDocumentation (.ok "") = none ∧
    fetchLibraryDocumentation (.ok "No context data available") = none := by
  refine ⟨?_, ?_, ?_, by decide, by decide, ?_, by decide, by decide, by decide⟩
  · simp [startContextEngine, hroot, hs, ht1, ht2]
  · simp [startContextEngine, hroot, hs]
  · simp [startContextEngine, hroot, hs]
  · intro ht3
    simp [fetchLibraryDocumentation, ht1, ht2, ht3]

theorem contentNormalization_witness :
    (startContextEngine (some "/p")
        (.ok { success := true, message := "m", status := sampleCompleteStatus })
        (.ok "No context data available")).result =
      .ok ("No context data available" ++
        ("\n\n📁 Local Documentation Structure: " ++ "m")) ∧
    fetchLibraryDocumentation (.ok "No context data available") = none :=
  ⟨(contentNormalization (some "/p")
      { success := true, message := "m", status := sampleCompleteStatus }
      "No context data available" (by decide) rfl (by decide) (by decide)).1,
   (contentNormalization (some "/p")
      { success := true, message := "m", status := sampleCompleteStatus }
      "No context data available" (by decide) rfl (by decide) (by decide)).2.2.2.2.2.2.2.2⟩

/-- C9: a POST to the event-stream message path with a missing (or empty)
session-identifier parameter is rejected with HTTP 400 and a descriptive
body; a session identifier not present in the session table is rejected with
HTTP 400 and a body containing that identifier; in neither case is the
message delivered to any session. -/
theorem ssePostMessage_rejects (sessionIdParam : Option String) (sessions : List String) :
    (sessionIdParam = none ∨ sessionIdParam = some "" →
      handleSsePostMessage sessionIdParam sessions =
        .errorResponse 400 "Missing sessionId parameter") ∧
    (∀ sid, sessionIdParam = some sid → sid ≠ "" → sessions.contains sid = false →
      handleSsePostMessage sessionIdParam sessions =
        .errorResponse 400 ("No transport found for sessionId: " ++ sid)) := by
  constructor
  · rintro (rfl | rfl) <;> simp [handleSsePostMessage]
  · rintro sid rfl hne hno
    have hmem : sid ∉ sessions := by simpa using hno
    simp [handleSsePostMessage, hne, hmem]

theorem ssePostMessage_rejects_witness :
    handleSsePostMessage none ["s1"] = .errorResponse 400 "Missing sessionId parameter" ∧
    handleSsePostMessage (some "abc") ["s1"] =
      .errorResponse 400 ("No transport found for sessionId: " ++ "abc") :=
  ⟨(ssePostMessage_rejects none ["s1"]).1 (Or.inl rfl),
   (ssePostMessage_rejects (some "abc") ["s1"]).2 "abc" rfl (by decide) (by decide)⟩

/-- C10: whenever the initial check is not complete and neither creation step
reports an error, `setupDocumentationStructure` returns `success = true` with
the completion message and whatever status the fresh final check produced —
the success flag reflects only the absence of exceptions, not the
completeness of the returned status. -/
theorem setup_success_reflects_exceptions_only (w : World) (root : FsPath) (now : String)
    (w1 w2 : World)
    (hroot : root ≠ [])
    (hnc : statusComplete (checkDocumentationStructure w.fs root) = false)
    (hr1 : (if structureMissing (checkDocumentationStructure w.fs root) then
        createDocumentationStructure w root else (w, none)) = (w1, none))
    (hr2 : (if configFilesMissing (checkDocumentationStructure w.fs root) then
        createDefaultConfigFiles w1 root now else (w1, none)) = (w2, none)) :
    setupDocumentationStructure w root now =
      ⟨.ok { success := true
             message := "Documentation structure setup completed successfully"
             status := checkDocumentationStructure w2.fs root }, w2⟩ :=
  setup_run_eq w root now w1 w2 (by simp [List.isEmpty_iff, hroot]) hnc hr1 hr2

theorem setup_success_reflects_exceptions_only_witness :
    setupDocumentationStructure ⟨[], 0, 0⟩ ["p"] "T0" =
      ⟨.ok { success := true
             message := "Documentation structure setup completed successfully"
             status := checkDocumentationStructure
               (createDefaultConfigFiles
                 (createDocumentationStructure ⟨[], 0, 0⟩ ["p"]).1 ["p"] "T0").1.fs
               ["p"] },
        (createDefaultConfigFiles
          (createDocumentationStructure ⟨[], 0, 0⟩ ["p"]).1 ["p"] "T0").1⟩ :=
  setup_success_reflects_exceptions_only ⟨[], 0, 0⟩ ["p"] "T0"
    (createDocumentationStructure ⟨[], 0, 0⟩ ["p"]).1
    (createDefaultConfigFiles (createDocumentationStructure ⟨[], 0, 0⟩ ["p"]).1 ["p"] "T0").1
    (by decide) (by decide) (by decide) (by decide)

/-- C8 counterexample: with `Authorization: Bearer    ` (prefix present, the
stripped-and-trimmed remainder empty) and an `x-api-key` header, the extracted
credential is the later header's value, not the empty credential of the first
present source — "first present source wins" is false as stated. -/
theorem extractApiKey_empty_bearer_falls_through :
    extractApiKey (some (.str "Bearer    ")) none none none
        (some (.str "fallback-key")) = some "fallback-key" ∧
    some "fallback-key" ≠ some "" := by
  decide

/-- C8 (amended): credential extraction tries, in order, the `Authorization`
header (with a case-sensitive literal `Bearer ` prefix stripped and the
remainder trimmed; without the prefix the whole value, verbatim), then the
primary API-key header, its lowercase variant, the secondary API-key header
and its lowercase variant — a list-valued header contributing its first
element — and the first source yielding a non-empty credential wins (a present
source whose extracted value is empty is skipped; the last lookup's value is
returned as-is when no source yields one).  In particular
`Bearer   abc123  ` yields `abc123` and a prefix-less `abc123` is used
verbatim. -/
theorem apiKey_resolution :
    (∀ a b c d e, extractApiKey a b c d e = specApiKey a b c d e) ∧
    extractApiKey (some (.str "Bearer   abc123  ")) none none none none =
      some "abc123" ∧
    extractApiKey (some (.str "abc123")) none none none none = some "abc123" ∧
    extractApiKey (some (.list "Bearer tok" ["other"])) none none none none =
      some "tok" := by
  refine ⟨?_, by decide, by decide, by decide⟩
  intro a b c d e
  unfold extractApiKey specApiKey
  rcases extractBearerToken a with _ | sa <;>
    rcases extractHeaderValue b with _ | sb <;>
    rcases extractHeaderValue c with _ | sc <;>
    rcases extractHeaderValue d with _ | sd <;>
    simp only [jsOrStr, firstNonEmptyCredential]

/-- C7: client-address extraction agrees on every input with the spec-side
resolution (first non-private entry of the comma-split, trimmed forwarding
header; first entry when all are private; else the socket remote address;
`::ffff:` prefixes stripped; `undefined` when no information is available —
the function is total and never throws).  In particular
"10.0.0.1, 203.0.113.5" resolves to "203.0.113.5" and
"10.0.0.1, 192.168.1.1" resolves to "10.0.0.1". -/
theorem clientIp_resolution :
    (∀ xff xffCased remoteAddress,
      getClientIp xff xffCased remoteAddress = specClientIp xff xffCased remoteAddress) ∧
    getClientIp (some (.str "10.0.0.1, 203.0.113.5")) none none = some "203.0.113.5" ∧
    getClientIp (some (.str "10.0.0.1, 192.168.1.1")) none none = some "10.0.0.1" ∧
    getClientIp none none (some "::ffff:192.168.1.2") = some "192.168.1.2" ∧
    getClientIp (some (.list "::ffff:10.0.0.1, 203.0.113.7" [])) none none =
      some "203.0.113.7" ∧
    getClientIp none none none = none := by
  refine ⟨?_, by decide, by decide, by decide, by decide, by decide⟩
  intro xff xffCased remoteAddress
  by_cases ht : headerTruthy (jsOrHeader xff xffCased) = true
  · rcases hj : jsOrHeader xff xffCased with _ | v
    · rw [hj] at ht
      simp [headerTruthy] at ht
    · rw [hj] at ht
      simp only [getClientIp, specClientIp, hj, ht, if_true]
      generalize (jsSplitComma (headerFirst v)).map (fun ip => jsTrim ip) = l
      rw [firstPublicIp_eq_find?]
      cases hf : l.find? (fun ip => !(isPrivateIp (stripIpv6Mapped ip))) <;> simp [hf]
  · have htF : headerTruthy (jsOrHeader xff xffCased) = false := by
      rwa [Bool.not_eq_true] at ht
    simp only [getClientIp, specClientIp, htF, Bool.false_eq_true, if_false]
